import Mathlib

/-!
Verification development for the relay engine of the `new-api` gateway.

The Go sources are shallowly embedded: Go strings are modelled as `List Char`
(the concrete inputs used below are ASCII, where Go's byte indexing and rune
indexing coincide), Go `int` as `Int` with the checks the source performs,
Go `float64` arithmetic as exact rational arithmetic (all concrete constants
used in theorems are exactly representable in binary floating point, so the
rational model agrees with the float computation there), and side-effecting
store/cache calls as explicit state passing or an explicit list of emitted
ledger operations.
-/

namespace NewApi

/-! ## Go string helpers (strings.ToLower, TrimPrefix, TrimSuffix, Replace, Split) -/

/-- ASCII case folding for one character, as Go `strings.ToLower` acts on ASCII. -/
def goToLowerChar (c : Char) : Char :=
  if 'A' ≤ c ∧ c ≤ 'Z' then Char.ofNat (c.toNat + 32) else c

/-- Go `strings.ToLower` (restricted to ASCII, which covers every input used here). -/
def goToLower (s : List Char) : List Char := s.map goToLowerChar

/-- Go `strings.TrimPrefix s pre`: drop `pre` from the front when it is a prefix. -/
def goTrimStart (s pre : List Char) : List Char :=
  if pre.isPrefixOf s then s.drop pre.length else s

/-- Go `strings.TrimSuffix s suf`: drop `suf` from the back when it is a suffix. -/
def goTrimEnd (s suf : List Char) : List Char :=
  if suf.isSuffixOf s then s.take (s.length - suf.length) else s

/-- Fuel-bounded scan for `goReplaceAll`; with fuel at least the length of the
input (each step consumes at least one character for a non-empty pattern) it
replaces every non-overlapping occurrence left to right. -/
def goReplaceAllAux (pat rep : List Char) : Nat → List Char → List Char
  | 0, s => s
  | _ + 1, [] => []
  | f + 1, c :: cs =>
    if pat ≠ [] ∧ pat.isPrefixOf (c :: cs) then
      rep ++ goReplaceAllAux pat rep f ((c :: cs).drop pat.length)
    else
      c :: goReplaceAllAux pat rep f cs

/-- Go `strings.Replace s pat rep -1`: replace every non-overlapping occurrence of
`pat` in `s` by `rep`, scanning left to right.  (Go treats an empty `pat`
specially; the sources only call this with non-empty patterns.) -/
def goReplaceAll (pat rep s : List Char) : List Char :=
  goReplaceAllAux pat rep s.length s

/-- Go `strings.Split s "?"` taken at index 0: the segment before the first `sep`. -/
def goSplitFirst (sep : Char) (s : List Char) : List Char :=
  s.takeWhile (fun c => c ≠ sep)

/-! ## Quota ledger model (src/relay/relay-text.go) -/

/-- Cache-backed balances touched by the pre-consume path: the account's cached
quota (`model.CacheGetUserQuota` / `CacheDecreaseUserQuota`) and the
credential ("token") quota. -/
structure QuotaState where
  userQuotaCache : Int
  tokenQuota : Int
deriving DecidableEq, Repr

/-- An error as produced by `service.OpenAIErrorWrapper`: the error code string
and the HTTP status it is wrapped with. -/
structure ApiError where
  code : List Char
  status : Nat
deriving DecidableEq, Repr

/-- Result of `preConsumeQuota`: either the actually pre-consumed amount, the
user quota returned to the caller and the balances after the call, or an error
together with the balances as the function leaves them on that error path. -/
inductive PreConsumeResult
  | ok (preConsumed userQuota : Int) (st : QuotaState)
  | err (e : ApiError) (st : QuotaState)
deriving DecidableEq, Repr

/-- The balances after a `preConsumeQuota` call. -/
def PreConsumeResult.state : PreConsumeResult → QuotaState
  | .ok _ _ st => st
  | .err _ st => st

/-- The actually reserved amount of a successful `preConsumeQuota` call. -/
def PreConsumeResult.reservedAmount : PreConsumeResult → Option Int
  | .ok p _ _ => some p
  | .err _ _ => none

/-- Embedding of `preConsumeQuota` (src/relay/relay-text.go lines 266-315).
The cache reads/writes are explicit on `QuotaState`; `model.PreConsumeTokenQuota`
is not under src and is modelled from the spec: it reserves `amount` against the
credential, failing (HTTP-forbidden class) when the credential's quota cannot
cover it, and returns the account balance after the reservation. -/
def preConsumeQuota (tokenUnlimited : Bool) (preConsumedQuota : Int)
    (st : QuotaState) : PreConsumeResult :=
  let userQuota := st.userQuotaCache
  if userQuota ≤ 0 ∨ userQuota - preConsumedQuota < 0 then
    .err ⟨"insufficient_user_quota".toList, 403⟩ st
  else
    -- model.CacheDecreaseUserQuota runs unconditionally before the trust check
    let st1 : QuotaState := { st with userQuotaCache := st.userQuotaCache - preConsumedQuota }
    let preConsumed :=
      if 100 * preConsumedQuota < userQuota then
        if tokenUnlimited then 0
        else if 100 * preConsumedQuota < st.tokenQuota then 0
        else preConsumedQuota
      else preConsumedQuota
    if 0 < preConsumed then
      if ¬ tokenUnlimited ∧ st1.tokenQuota - preConsumed < 0 then
        .err ⟨"pre_consume_token_quota_failed".toList, 403⟩ st1
      else
        let st2 : QuotaState := { st1 with tokenQuota := st1.tokenQuota - preConsumed }
        .ok preConsumed st2.userQuotaCache st2
    else
      .ok preConsumed userQuota st1

/-- Go's `int(x)` conversion from `float64`: truncation toward zero, on the
exact rational model of the float value. -/
def goInt (q : ℚ) : ℤ :=
  if 0 ≤ q then ⌊q⌋ else ⌈q⌉

/-- One ledger/store operation emitted by `postConsumeQuota`, in program order. -/
inductive LedgerOp
  | postConsumeTokenQuota (quotaDelta preConsumedQuota : Int) (commit : Bool)
  | cacheUpdateUserQuota
  | updateUserUsedQuotaAndRequestCount (quota : Int)
  | updateChannelUsedQuota (quota : Int)
  | recordConsumeLog (promptTokens completionTokens quota : Int)
deriving DecidableEq, Repr

/-- Whether a ledger operation reconciles the reservation against the store
(`model.PostConsumeTokenQuota`). -/
def LedgerOp.isReconciliation : LedgerOp → Bool
  | .postConsumeTokenQuota _ _ _ => true
  | _ => false

/-- The ratio-pricing branch of `postConsumeQuota` (src/relay/relay-text.go
lines 348-354): two Go `int` truncations, then the floor-to-1 rule. -/
def computeRatioQuota (promptTokens completionTokens : ℤ)
    (completionRatio ratio : ℚ) : ℤ :=
  let quota := promptTokens + goInt (completionTokens * completionRatio)
  let quota := goInt (quota * ratio)
  if ratio ≠ 0 ∧ quota ≤ 0 then 1 else quota

/-- The fixed-price branch of `postConsumeQuota` (src/relay/relay-text.go line 356). -/
def computeFixedQuota (modelPrice quotaPerUnit groupRatio : ℚ) : ℤ :=
  goInt (modelPrice * quotaPerUnit * groupRatio)

/-- Embedding of `postConsumeQuota` (src/relay/relay-text.go lines 337-400):
returns the charged quota and the list of ledger/store operations performed,
in program order.  `ratio` is the value computed in `TextHelper`
(`modelRatio * groupRatio` when the model is ratio-priced). -/
def postConsumeQuota (promptTokens completionTokens : ℤ)
    (completionRatio ratio : ℚ) (modelPrice quotaPerUnit groupRatio : ℚ)
    (preConsumedQuota : ℤ) : ℤ × List LedgerOp :=
  let quota :=
    if modelPrice = -1 then
      computeRatioQuota promptTokens completionTokens completionRatio ratio
    else
      computeFixedQuota modelPrice quotaPerUnit groupRatio
  let totalTokens := promptTokens + completionTokens
  if totalTokens = 0 then
    (0, [.recordConsumeLog promptTokens completionTokens 0])
  else
    (quota,
      [.postConsumeTokenQuota (quota - preConsumedQuota) preConsumedQuota true,
       .cacheUpdateUserQuota,
       .updateUserUsedQuotaAndRequestCount quota,
       .updateChannelUsedQuota quota,
       .recordConsumeLog promptTokens completionTokens quota])

/-- Written from the spec's words for the ratio-pricing rule (claim C4):
`charge = round((promptTokens + completionTokens × completionRatio) × modelRatio
× groupRatio)`, floored to 1 when the combined ratio is nonzero but the
computed charge rounds to 0 or below. -/
def ratioChargeSpecRounded (promptTokens completionTokens : ℤ)
    (completionRatio modelRatio groupRatio : ℚ) : ℤ :=
  let r := modelRatio * groupRatio
  let charge := round (((promptTokens : ℚ) + (completionTokens : ℚ) * completionRatio) * r)
  if r ≠ 0 ∧ charge ≤ 0 then 1 else charge

/-- Written from the amended wording of claim C4: the charge uses Go's
truncation toward zero, applied once to the completion-token product and once
to the combined product, with the same floor-to-1 rule. -/
def ratioChargeTruncated (promptTokens completionTokens : ℤ)
    (completionRatio modelRatio groupRatio : ℚ) : ℤ :=
  let r := modelRatio * groupRatio
  let charge := goInt (((promptTokens : ℚ) + (goInt ((completionTokens : ℚ) * completionRatio) : ℚ)) * r)
  if r ≠ 0 ∧ charge ≤ 0 then 1 else charge

/-! ## Sensitive content filter (src/unnamed/part_000, package service) -/

/-- Whitespace as trimmed by Go `bytes.TrimSpace` (ASCII subset). -/
def goIsSpace (c : Char) : Bool :=
  c = ' ' ∨ c = '\t' ∨ c = '\n' ∨ c = '\r'

/-- Go `bytes.TrimSpace`: drop whitespace from both ends. -/
def goTrimSpace (s : List Char) : List Char :=
  ((s.dropWhile goIsSpace).reverse.dropWhile goIsSpace).reverse

/-- The dictionary built by `readRunes`: each configured word lower-cased and
whitespace-trimmed. -/
def readRunes (sensitiveWords : List (List Char)) : List (List Char) :=
  sensitiveWords.map (fun w => goTrimSpace (goToLower w))

/-- Whether dictionary word `w` occurs in `t` starting at rune position `pos`. -/
def matchesAt (t w : List Char) (pos : Nat) : Bool :=
  w.isPrefixOf (t.drop pos)

/-- The hit list produced by the Aho-Corasick `MultiPatternSearch` over `t`
(`returnImmediately = false`): every occurrence of every non-empty dictionary
word, as `(start position, word)`, emitted in order of increasing end position
(the order in which the automaton reaches each text position), dictionary order
within one end position. -/
def acMatches (dict : List (List Char)) (t : List Char) : List (Nat × List Char) :=
  ((List.range (t.length + 1)).map (fun e =>
    dict.filterMap (fun w =>
      if w ≠ [] ∧ w.length ≤ e ∧ matchesAt t w (e - w.length) then
        some (e - w.length, w)
      else none))).flatten

/-- Embedding of `SensitiveWordReplace` (src/unnamed/part_000 lines 74-92).
Each hit is replaced by the mask via Go's
`text = text[:pos] + "*###*" + text[pos+len(word):]`, i.e. the stored offset is
applied to the text as already mutated by the previous replacements. -/
def SensitiveWordReplace (sensitiveWords : List (List Char)) (text : List Char)
    (returnImmediately : Bool) : Bool × List (List Char) × List Char :=
  if sensitiveWords.length = 0 then (false, [], text)
  else
    let checkText := goToLower text
    let all := acMatches (readRunes sensitiveWords) checkText
    let hits := if returnImmediately then all.take 1 else all
    if hits ≠ [] then
      (true, hits.map Prod.snd,
        hits.foldl (fun t hit =>
          t.take hit.1 ++ "*###*".toList ++ t.drop (hit.1 + hit.2.length)) text)
    else (false, [], text)

/-- Embedding of `SensitiveWordContains` (src/unnamed/part_000 lines 50-66). -/
def SensitiveWordContains (sensitiveWords : List (List Char)) (text : List Char) :
    Bool × List (List Char) :=
  if sensitiveWords.length = 0 then (false, [])
  else
    let checkText := goToLower text
    let hits := acMatches (readRunes sensitiveWords) checkText
    if hits ≠ [] then (true, hits.map Prod.snd)
    else (false, [])

/-- Written from the spec's words for claim C5: redact every match in a single
left-to-right pass over the original text using the offsets computed against
the original text, keeping every unmatched span intact (hits whose start lies
inside an already-redacted span are skipped by the cursor). -/
def specRedact (text : List Char) (hits : List (Nat × List Char)) : List Char :=
  let step := hits.foldl
    (fun (acc : List Char × Nat) hit =>
      if acc.2 ≤ hit.1 then
        (acc.1 ++ ((text.drop acc.2).take (hit.1 - acc.2)) ++ "*###*".toList,
         hit.1 + hit.2.length)
      else acc)
    ([], 0)
  step.1 ++ text.drop step.2

/-! ## OpenAI adaptor URL construction (src/relay/channel/openai/adaptor.go) -/

/-- Modelled from the spec: `relaycommon.GetFullRequestURL` is not under src;
per the data flow it combines the channel's upstream base URL with the
provider-specific request path to form the full upstream URL. -/
def getFullRequestURL (baseUrl requestURL : List Char) : List Char :=
  baseUrl ++ requestURL

/-- Embedding of `openai.Adaptor.GetRequestURL` (src/relay/channel/openai/adaptor.go
lines 27-44).  For an Azure channel: query string stripped, `api-version`
appended, the `/v1/` prefix removed to obtain the task, and the deployment
segment derived from the upstream model name with dots removed and the
`-0301`/`-0314`/`-0613` suffixes trimmed in that order. -/
def GetRequestURL (channelTypeAzure : Bool) (baseUrl requestURLPath apiVersion
    upstreamModelName : List Char) : List Char :=
  if channelTypeAzure then
    let requestURL := goSplitFirst '?' requestURLPath
    let requestURL := requestURL ++ "?api-version=".toList ++ apiVersion
    let task := goTrimStart requestURL "/v1/".toList
    let model_ := goReplaceAll ['.'] [] upstreamModelName
    let model_ := goTrimEnd (goTrimEnd (goTrimEnd model_ "-0301".toList) "-0314".toList) "-0613".toList
    getFullRequestURL baseUrl ("/openai/deployments/".toList ++ model_ ++ ['/'] ++ task)
  else
    getFullRequestURL baseUrl requestURLPath

/-! ## Relay modes (one-api/relay/constant) -/

/-- The relay modalities distinguished by the text pipeline. -/
inductive RelayMode
  | chatCompletions
  | completions
  | embeddings
  | moderations
  | edits
  | other
deriving DecidableEq, Repr

/-! ## A small JSON model, for the stream aggregation of `OpenaiStreamHandler`.
Go's `encoding/json` is not under src; this models the subset it is applied to:
unmarshalling `"[" + strings.Join(streamItems, ",") + "]"` into the stream
response DTOs, ignoring unknown fields and defaulting missing ones. -/

inductive Json
  | str (s : List Char)
  | num (n : Int)
  | obj (fields : List (List Char × Json))
  | arr (elems : List Json)
  | boolean (b : Bool)
  | null

/-- Skip JSON whitespace. -/
def jsonSkipWs (s : List Char) : List Char :=
  s.dropWhile (fun c => c = ' ' ∨ c = '\n' ∨ c = '\t' ∨ c = '\r')

/-- Parse the body of a JSON string after the opening quote, handling the
escapes `\"` and `\\` (the only ones the concrete inputs use); returns the
string contents and the rest after the closing quote. -/
def jsonParseStr : List Char → Option (List Char × List Char)
  | [] => none
  | '"' :: cs => some ([], cs)
  | '\\' :: [] => none
  | '\\' :: e :: cs2 =>
    (match jsonParseStr cs2 with
     | some (body, rest) => some (e :: body, rest)
     | none => none)
  | c :: cs =>
    (match jsonParseStr cs with
     | some (body, rest) => some (c :: body, rest)
     | none => none)

/-- Parse an optionally signed integer literal. -/
def jsonParseNum (s : List Char) : Option (Int × List Char) :=
  let (neg, s1) : Bool × List Char :=
    match s with
    | '-' :: rest => (true, rest)
    | _ => (false, s)
  let digits := s1.takeWhile (fun c => c.isDigit)
  if digits = [] then none
  else
    let n : Nat := digits.foldl (fun a c => 10 * a + (c.toNat - 48)) 0
    some (if neg then -(n : Int) else (n : Int), s1.drop digits.length)

mutual

/-- Parse one JSON value (fuel-bounded recursive descent). -/
def jsonParseValue : Nat → List Char → Option (Json × List Char)
  | 0, _ => none
  | Nat.succ f, s =>
    match jsonSkipWs s with
    | [] => none
    | c :: cs =>
      if c = '"' then
        match jsonParseStr cs with
        | some (body, rest) => some (.str body, rest)
        | none => none
      else if c = '\x7b' then
        jsonParseFields f (jsonSkipWs cs) true
      else if c = '[' then
        jsonParseElems f (jsonSkipWs cs) true
      else if c = 't' then
        if "rue".toList.isPrefixOf cs then some (.boolean true, cs.drop 3) else none
      else if c = 'f' then
        if "alse".toList.isPrefixOf cs then some (.boolean false, cs.drop 4) else none
      else if c = 'n' then
        if "ull".toList.isPrefixOf cs then some (.null, cs.drop 3) else none
      else
        match jsonParseNum (c :: cs) with
        | some (n, rest) => some (.num n, rest)
        | none => none

/-- Parse object members up to the closing brace; `first` is true before the
first member. -/
def jsonParseFields : Nat → List Char → Bool → Option (Json × List Char)
  | 0, _, _ => none
  | Nat.succ f, s, first =>
    match jsonSkipWs s with
    | [] => none
    | c :: cs =>
      if c = '\x7d' then some (.obj [], cs)
      else
        let s1 := if first then c :: cs else
          if c = ',' then jsonSkipWs cs else []
        match jsonSkipWs s1 with
        | '"' :: cs2 =>
          match jsonParseStr cs2 with
          | some (key, rest) =>
            (match jsonSkipWs rest with
             | ':' :: rest2 =>
               match jsonParseValue f rest2 with
               | some (v, rest3) =>
                 match jsonParseFields f rest3 false with
                 | some (.obj fields, rest4) => some (.obj ((key, v) :: fields), rest4)
                 | _ => none
               | none => none
             | _ => none)
          | none => none
        | _ => none

/-- Parse array elements up to the closing bracket; `first` is true before the
first element. -/
def jsonParseElems : Nat → List Char → Bool → Option (Json × List Char)
  | 0, _, _ => none
  | Nat.succ f, s, first =>
    match jsonSkipWs s with
    | [] => none
    | c :: cs =>
      if c = ']' then some (.arr [], cs)
      else
        let s1 := if first then c :: cs else
          if c = ',' then cs else []
        match jsonParseValue f s1 with
        | some (v, rest) =>
          match jsonParseElems f rest false with
          | some (.arr elems, rest2) => some (.arr (v :: elems), rest2)
          | _ => none
        | none => none

end

/-- Parse a complete JSON document (the fuel is sized to the input). -/
def jsonParse (s : List Char) : Option Json :=
  match jsonParseValue (s.length + 1) s with
  | some (v, rest) => if jsonSkipWs rest = [] then some v else none
  | none => none

/-- Look up a key in a parsed JSON object's field list. -/
def jsonLookup (fields : List (List Char × Json)) (key : List Char) : Option Json :=
  (fields.find? (fun kv => kv.1 == key)).map (fun kv => kv.2)

/-! ## Streaming response processor (src/relay/channel/openai/adaptor.go,
`OpenaiStreamHandler`, lines 145-257).  The producer goroutine and the
`c.Stream` consumer communicate through a FIFO channel read by a single
consumer, so the model is their sequentialization: the list of frames rendered
to the client, in the order the producer read them from upstream (the consumer
then observes the stop signal, terminating the stream), together with the
aggregated response text. -/

/-- Decode one choice of a chat stream item: the `delta.content` string, with
Go `encoding/json` semantics (missing field or JSON null leaves the zero value
`""`; a type mismatch is an unmarshal error). -/
def decodeChatChoice : Json → Option (List Char)
  | .obj fs =>
    match jsonLookup fs "delta".toList with
    | some (.obj dfs) =>
      (match jsonLookup dfs "content".toList with
       | some (.str s) => some s
       | some .null => some []
       | some _ => none
       | none => some [])
    | some .null => some []
    | some _ => none
    | none => some []
  | .null => some []
  | _ => none

/-- Decode one choice of a completions stream item: its `text` field. -/
def decodeCompletionChoice : Json → Option (List Char)
  | .obj fs =>
    match jsonLookup fs "text".toList with
    | some (.str s) => some s
    | some .null => some []
    | some _ => none
    | none => some []
  | .null => some []
  | _ => none

/-- Decode one stream response item, concatenating its choices under the given
per-choice decoder. -/
def decodeStreamItem (choiceDecoder : Json → Option (List Char)) : Json → Option (List Char)
  | .obj fs =>
    match jsonLookup fs "choices".toList with
    | some (.arr chs) => (chs.mapM choiceDecoder).map List.flatten
    | some .null => some []
    | some _ => none
    | none => some []
  | .null => some []
  | _ => none

/-- Unmarshal the joined stream items and concatenate the per-choice text; a
parse or unmarshal error leaves the aggregation empty (the Go code logs the
error and returns with the builder untouched). -/
def aggregateStreamText (choiceDecoder : Json → Option (List Char))
    (streamResp : List Char) : List Char :=
  match jsonParse streamResp with
  | some (.arr items) => ((items.mapM (decodeStreamItem choiceDecoder)).map List.flatten).getD []
  | _ => []

/-- Fuel-bounded splitter for `goScanLines`; each step consumes at least one
character, so fuel equal to the input length suffices. -/
def goScanLinesAux : Nat → List Char → List (List Char)
  | 0, _ => []
  | f + 1, s =>
    if s = [] then []
    else
      let line := s.takeWhile (fun c => c ≠ '\n')
      if line.length = s.length then [line]
      else line :: goScanLinesAux f (s.drop (line.length + 1))

/-- The line splitting of the custom `bufio.Scanner` split function: split on
`\n`, with a trailing unterminated final line kept. -/
def goScanLines (s : List Char) : List (List Char) :=
  goScanLinesAux s.length s

/-- The producer loop of `OpenaiStreamHandler`: processes upstream lines in
order, returning the frames pushed onto the hand-off channel and the collected
stream items (the payloads kept for aggregation).  Lines shorter than 6 bytes
or not starting with `data: ` or `[DONE]` are discarded; on a sensitive match
with the stop-on-sensitive policy a terminator frame is injected and reading
stops. -/
def producerLoop (sensitiveWords : List (List Char))
    (checkSensitive stopOnSensitive : Bool) :
    List (List Char) → List (List Char) × List (List Char)
  | [] => ([], [])
  | line :: rest =>
    if line.length < 6 then producerLoop sensitiveWords checkSensitive stopOnSensitive rest
    else if line.take 6 ≠ "data: ".toList ∧ line.take 6 ≠ "[DONE]".toList then
      producerLoop sensitiveWords checkSensitive stopOnSensitive rest
    else
      let replaced :=
        if checkSensitive then
          let r := SensitiveWordReplace sensitiveWords line false
          (r.1, r.2.2)
        else (false, line)
      let data := goReplaceAll "\"role\":null".toList "\"role\":\"assistant\"".toList replaced.2
      let item := data.drop 6
      let items := if "[DONE]".toList.isPrefixOf item then [] else [item]
      if replaced.1 ∧ stopOnSensitive then
        ([data, "data: [DONE]".toList], items)
      else
        let next := producerLoop sensitiveWords checkSensitive stopOnSensitive rest
        (data :: next.1, items ++ next.2)

/-- Result of the stream handler: the event-stream frames rendered to the
client in order (after which the consumer observes the stop signal and the
stream terminates), and the aggregated response text returned for billing. -/
structure StreamResult where
  frames : List (List Char)
  responseText : List Char
deriving DecidableEq, Repr

/-- Embedding of `OpenaiStreamHandler` (src/relay/channel/openai/adaptor.go
lines 145-257), sequentializing the single-producer/single-consumer hand-off:
upstream body is split into lines, processed by the producer, the retained
payloads are joined as a JSON array and unmarshalled per relay mode (chat:
concatenate each delta's `content`; completions: concatenate each choice's
`text`), and each channel frame is rendered after truncating a
`data: [DONE]` frame to its first 12 bytes and trimming a trailing `\r`. -/
def OpenaiStreamHandler (sensitiveWords : List (List Char))
    (checkSensitive stopOnSensitive : Bool) (relayMode : RelayMode)
    (body : List Char) : StreamResult :=
  let lines := goScanLines body
  let pl := producerLoop sensitiveWords checkSensitive stopOnSensitive lines
  let streamResp := '[' :: (List.intercalate [','] pl.2) ++ [']']
  let responseText :=
    match relayMode with
    | .chatCompletions => aggregateStreamText decodeChatChoice streamResp
    | .completions => aggregateStreamText decodeCompletionChoice streamResp
    | _ => []
  let frames := pl.1.map (fun d =>
    goTrimEnd (if "data: [DONE]".toList.isPrefixOf d then d.take 12 else d) ['\r'])
  ⟨frames, responseText⟩

/-! ## Text request validation (src/relay/relay-text.go, `getAndValidateTextRequest`) -/

/-- The fields of `dto.GeneralOpenAIRequest` that the validator inspects.
`messages` keeps only the raw message payloads (the validator checks only
emptiness of the list). -/
structure TextRequest where
  model : List Char
  messages : List (List Char)
  prompt : List Char
  input : List Char
  instruction : List Char
  maxTokens : Int
  stream : Bool
deriving DecidableEq, Repr

/-- Embedding of `getAndValidateTextRequest` (src/relay/relay-text.go lines
29-79): default the model for moderations (to `text-moderation-latest`) and for
embeddings (from the `:model` URL path parameter) when empty, then validate
max-tokens, model presence and the modality-specific required field. -/
def getAndValidateTextRequest (mode : RelayMode) (pathModelParam : List Char)
    (req : TextRequest) : Except (List Char) TextRequest :=
  let req := if mode = .moderations ∧ req.model = [] then
    { req with model := "text-moderation-latest".toList } else req
  let req := if mode = .embeddings ∧ req.model = [] then
    { req with model := pathModelParam } else req
  if req.maxTokens < 0 ∨ 1073741823 < req.maxTokens then
    .error "max_tokens is invalid".toList
  else if req.model = [] then
    .error "model is required".toList
  else
    match mode with
    | .completions =>
      if req.prompt = [] then .error "field prompt is required".toList else .ok req
    | .chatCompletions =>
      if req.messages = [] then .error "field messages is required".toList else .ok req
    | .embeddings => .ok req
    | .moderations =>
      if req.input = [] then .error "field input is required".toList else .ok req
    | .edits =>
      if req.instruction = [] then .error "field instruction is required".toList else .ok req
    | .other => .ok req

/-! ## Routing-layer retry (src/controller/relay.go, `Relay`, lines 386-428) -/

/-- Decimal digit character. -/
def decDigit (d : Nat) : Char := "0123456789".toList.getD d '0'

/-- Fuel-bounded digit expansion for `natToDec`; fuel `n + 1` always suffices
since the argument strictly shrinks at each division by 10. -/
def natToDecAux : Nat → Nat → List Char
  | 0, _ => []
  | f + 1, n =>
    if n < 10 then [decDigit n]
    else natToDecAux f (n / 10) ++ [decDigit (n % 10)]

/-- Decimal representation of a natural number, as `fmt.Sprintf` prints it. -/
def natToDec (n : Nat) : List Char :=
  natToDecAux (n + 1) n

/-- Decimal representation of an integer, as `fmt.Sprintf "%d"` prints it. -/
def intToDec (i : Int) : List Char :=
  if i < 0 then '-' :: natToDec i.natAbs else natToDec i.toNat

/-- Whether a character is a decimal digit. -/
def isDecDigit (c : Char) : Bool := '0' ≤ c ∧ c ≤ '9'

/-- Numeric value of a digit string. -/
def decValue (s : List Char) : Nat :=
  s.foldl (fun a c => 10 * a + (c.toNat - 48)) 0

/-- Go `strconv.Atoi` as used on the retry counter: optional sign followed by
decimal digits; on a syntax error it yields 0 (the error itself is discarded
by the caller).  Overflow of the retry counter does not arise. -/
def goAtoi (s : List Char) : Int :=
  match s with
  | [] => 0
  | c :: rest =>
    if c = '-' then
      (if rest ≠ [] ∧ rest.all isDecDigit then -(decValue rest : Int) else 0)
    else if c = '+' then
      (if rest ≠ [] ∧ rest.all isDecDigit then (decValue rest : Int) else 0)
    else
      (if (c :: rest).all isDecDigit then (decValue (c :: rest) : Int) else 0)

/-- The client-visible outcome of the error path of `controller.Relay`: either
a redirect (status and Location) or the error JSON carrying the error status,
message and the request id appended for correlation. -/
inductive RelayAction
  | redirect (status : Nat) (location : List Char)
  | jsonError (status : Nat) (message requestId : List Char)
deriving DecidableEq, Repr

/-- Embedding of the error path of `controller.Relay` (src/controller/relay.go
lines 401-418): the remaining retry counter comes from the `retry` query
parameter (the configured default `common.RetryTimes` when the parameter is
absent, i.e. the empty string in gin); a positive counter turns into a 307
redirect to the same path with the decremented counter, otherwise the error
JSON with the request id is returned. -/
def relayErrorOutcome (path retryTimesStr : List Char) (defaultRetryTimes : Int)
    (errStatus : Nat) (errMessage requestId : List Char) : RelayAction :=
  let retryTimes := goAtoi retryTimesStr
  let retryTimes := if retryTimesStr = [] then defaultRetryTimes else retryTimes
  if 0 < retryTimes then
    .redirect 307 (path ++ "?retry=".toList ++ intToDec (retryTimes - 1))
  else
    .jsonError errStatus errMessage requestId

/-! ## Helper lemmas: decimal printing and parsing round-trip -/

theorem decDigit_toNat (d : Nat) (h : d < 10) : (decDigit d).toNat = 48 + d := by
  interval_cases d <;> rfl

theorem isDecDigit_decDigit (d : Nat) (h : d < 10) : isDecDigit (decDigit d) = true := by
  interval_cases d <;> rfl

theorem decValue_append_digit (xs : List Char) (c : Char) :
    decValue (xs ++ [c]) = 10 * decValue xs + (c.toNat - 48) := by
  simp [decValue, List.foldl_append]

theorem natToDecAux_spec (f : Nat) : ∀ n, n < f →
    decValue (natToDecAux f n) = n ∧ (natToDecAux f n).all isDecDigit = true ∧
    natToDecAux f n ≠ [] := by
  induction f with
  | zero => intro n hn; omega
  | succ f ih =>
    intro n hn
    by_cases h10 : n < 10
    · simp only [natToDecAux, if_pos h10]
      refine ⟨?_, ?_, by simp⟩
      · simp [decValue, decDigit_toNat n h10]
      · simp [isDecDigit_decDigit n h10]
    · have hdivlt : n / 10 < n := Nat.div_lt_self (by omega) (by omega)
      have hdiv : n / 10 < f := by omega
      obtain ⟨hv, ha, hne⟩ := ih (n / 10) hdiv
      simp only [natToDecAux, if_neg h10]
      refine ⟨?_, ?_, by simp⟩
      · rw [decValue_append_digit, hv, decDigit_toNat (n % 10) (Nat.mod_lt n (by omega))]
        omega
      · simp [List.all_append, ha, isDecDigit_decDigit (n % 10) (Nat.mod_lt n (by omega))]

theorem decValue_natToDec (n : Nat) : decValue (natToDec n) = n :=
  (natToDecAux_spec (n + 1) n (by omega)).1

theorem natToDec_all_digits (n : Nat) : (natToDec n).all isDecDigit = true :=
  (natToDecAux_spec (n + 1) n (by omega)).2.1

theorem natToDec_ne_nil (n : Nat) : natToDec n ≠ [] :=
  (natToDecAux_spec (n + 1) n (by omega)).2.2

theorem goAtoi_natToDec (n : Nat) : goAtoi (natToDec n) = n := by
  have hall := natToDec_all_digits n
  have hval := decValue_natToDec n
  obtain ⟨c, cs, hcc⟩ := List.exists_cons_of_ne_nil (natToDec_ne_nil n)
  rw [hcc] at hall hval ⊢
  have hc : isDecDigit c = true := by
    simp [List.all_cons] at hall
    exact hall.1
  have hcm : c ≠ '-' := by
    intro he; rw [he] at hc; revert hc; decide
  have hcp : c ≠ '+' := by
    intro he; rw [he] at hc; revert hc; decide
  simp only [goAtoi, if_neg hcm, if_neg hcp, if_pos hall, hval]

theorem intToDec_ofNat (m : Nat) : intToDec (m : Int) = natToDec m := by
  rw [intToDec, if_neg (by omega), Int.toNat_natCast]

/-! ## Claim theorems -/

/-- C1: with `Usage` totalling 0 tokens the charged quota is 0 regardless of
pricing mode — but, contrary to the claim (and to the code's own comment), the
code performs no `PostConsumeTokenQuota` reconciliation in that branch, so a
nonzero pre-consumed reservation is left unreturned. -/
theorem zero_total_zero_charge_but_no_reconciliation
    (pt ct : ℤ) (cr ratio mp qpu gr : ℚ) (pre : ℤ) (h : pt + ct = 0) :
    (postConsumeQuota pt ct cr ratio mp qpu gr pre).1 = 0 ∧
    ∀ op ∈ (postConsumeQuota pt ct cr ratio mp qpu gr pre).2,
      op.isReconciliation = false := by
  simp [postConsumeQuota, h, LedgerOp.isReconciliation]

/-- Witness of C1's theorem at prompt 0, completion 0 and pre-consumed 50. -/
theorem zero_total_zero_charge_but_no_reconciliation_witness :
    (0 : ℤ) + 0 = 0 ∧
    ((postConsumeQuota 0 0 1 1 (-1) 1 1 50).1 = 0 ∧
      ∀ op ∈ (postConsumeQuota 0 0 1 1 (-1) 1 1 50).2, op.isReconciliation = false) :=
  ⟨rfl, zero_total_zero_charge_but_no_reconciliation 0 0 1 1 (-1) 1 1 50 rfl⟩

/-- C2 counterexample: with account balance 1,000,000, request 100 and
credential quota 1,000,000 (headroom far above 100×), `preConsumeQuota` does
return an actually-reserved amount of 0 — but the account's cached balance is
not left unchanged: it has been decremented to 999,900. -/
theorem trust_path_balance_counterexample :
    (preConsumeQuota false 100 ⟨1000000, 1000000⟩).reservedAmount = some 0 ∧
    (preConsumeQuota false 100 ⟨1000000, 1000000⟩).state ≠ ⟨1000000, 1000000⟩ := by
  decide

/-- C2 amended: under the trust fast-path conditions (balance above 100× the
request, credential unlimited or with quota above 100× the request) the
reserved amount is 0 and the credential balance is untouched, but the account's
cached balance is still decremented by the requested amount, because
`CacheDecreaseUserQuota` runs before the trust check. -/
theorem trust_path_reserves_zero_but_decrements_account_cache
    (uq tq pre : Int) (hpre : 0 < pre) (huq : 100 * pre < uq) :
    (100 * pre < tq →
      preConsumeQuota false pre ⟨uq, tq⟩ = .ok 0 uq ⟨uq - pre, tq⟩) ∧
    preConsumeQuota true pre ⟨uq, tq⟩ = .ok 0 uq ⟨uq - pre, tq⟩ := by
  constructor
  · intro htq
    simp [preConsumeQuota, huq, htq]
    omega
  · simp [preConsumeQuota, huq]
    omega

/-- Witness of C2's amended theorem at balance 1,000,000, request 100,
credential quota 1,000,000, both with and without an unlimited credential. -/
theorem trust_path_reserves_zero_but_decrements_account_cache_witness :
    (0 : Int) < 100 ∧ 100 * 100 < (1000000 : Int) ∧
    preConsumeQuota false 100 ⟨1000000, 1000000⟩ = .ok 0 1000000 ⟨999900, 1000000⟩ ∧
    preConsumeQuota true 100 ⟨1000000, 1000000⟩ = .ok 0 1000000 ⟨999900, 1000000⟩ := by
  have h := trust_path_reserves_zero_but_decrements_account_cache 1000000 1000000 100
    (by decide) (by decide)
  exact ⟨by decide, by decide, by simpa using h.1 (by decide), by simpa using h.2⟩

/-- C3: a reservation that would make the account balance negative, or finds it
already at most 0, fails with the insufficient-user-quota error (HTTP 403) and
mutates neither the account's nor the credential's balance. -/
theorem insufficient_user_quota_rejected
    (unlimited : Bool) (pre uq tq : Int) (h : uq ≤ 0 ∨ uq - pre < 0) :
    preConsumeQuota unlimited pre ⟨uq, tq⟩ =
      .err ⟨"insufficient_user_quota".toList, 403⟩ ⟨uq, tq⟩ := by
  simp [preConsumeQuota, h]
  intro h01 hple
  exact absurd (And.intro h01 hple) (by omega)

/-- Witness of C3's theorem at balance 50 and request 100. -/
theorem insufficient_user_quota_rejected_witness :
    ((50 : Int) ≤ 0 ∨ (50 : Int) - 100 < 0) ∧
    preConsumeQuota false 100 ⟨50, 7⟩ =
      .err ⟨"insufficient_user_quota".toList, 403⟩ ⟨50, 7⟩ :=
  ⟨by decide, insufficient_user_quota_rejected false 100 50 7 (by decide)⟩

/-- C4 counterexample: at prompt 0, completion 1, completion ratio 1, model
ratio 7/4, group ratio 1 (all exactly representable in binary floating point)
the code charges 1 — Go `int` truncation — while the claimed rounded formula
gives 2. -/
theorem ratio_pricing_truncates_not_rounds :
    (postConsumeQuota 0 1 1 (7 / 4) (-1) 1 1 0).1 = 1 ∧
    ratioChargeSpecRounded 0 1 1 (7 / 4) 1 = 2 ∧
    (postConsumeQuota 0 1 1 (7 / 4) (-1) 1 1 0).1 ≠ ratioChargeSpecRounded 0 1 1 (7 / 4) 1 := by
  have h1 : (postConsumeQuota 0 1 1 (7 / 4) (-1) 1 1 0).1 = 1 := by
    norm_num [postConsumeQuota, computeRatioQuota, goInt]
  have h2 : ratioChargeSpecRounded 0 1 1 (7 / 4) 1 = 2 := by
    norm_num [ratioChargeSpecRounded, round_eq]
  exact ⟨h1, h2, by omega⟩

/-- C4 amended: for ratio-priced settlements with nonzero total tokens the
charge equals the doubly-truncated formula (Go `int` conversions), with the
floor to 1 when the combined ratio is nonzero and the truncated charge is at
most 0. -/
theorem ratio_charge_equals_truncated_formula
    (pt ct : ℤ) (cr mr gr qpu : ℚ) (pre : ℤ) (h : pt + ct ≠ 0) :
    (postConsumeQuota pt ct cr (mr * gr) (-1) qpu gr pre).1 =
      ratioChargeTruncated pt ct cr mr gr := by
  have hcast : ((pt + goInt ((ct : ℚ) * cr) : ℤ) : ℚ) =
      (pt : ℚ) + (goInt ((ct : ℚ) * cr) : ℚ) := by push_cast; ring
  simp [postConsumeQuota, computeRatioQuota, ratioChargeTruncated, h, hcast]

/-- Witness of C4's amended theorem at prompt 2, completion 3. -/
theorem ratio_charge_equals_truncated_formula_witness :
    ((2 : ℤ) + 3 ≠ 0) ∧
    (postConsumeQuota 2 3 1 (2 * 1) (-1) 1 1 5).1 = ratioChargeTruncated 2 3 1 2 1 :=
  ⟨by decide, ratio_charge_equals_truncated_formula 2 3 1 2 1 1 5 (by decide)⟩

/-- C5: with dictionary phrase `bad` and input `badXbad`, the code applies the
stored offsets to the already-mutated string (`*###*` has length 5, `bad`
length 3), yielding `*###*###*ad` — the unmatched span `X` is destroyed and the
second occurrence survives in part — whereas the single-pass redaction over the
original offsets demanded by the claim yields `*###*X*###*`. -/
theorem sensitive_replace_corrupts_on_multiple_matches :
    SensitiveWordReplace ["bad".toList] "badXbad".toList false =
      (true, ["bad".toList, "bad".toList], "*###*###*ad".toList) ∧
    specRedact "badXbad".toList
        (acMatches (readRunes ["bad".toList]) (goToLower "badXbad".toList)) =
      "*###*X*###*".toList ∧
    ("*###*###*ad".toList : List Char) ≠ "*###*X*###*".toList :=
  ⟨rfl, rfl, by decide⟩

/-- C8: with an empty configured phrase list both filter entry points report no
match, return an empty matched-word list, and return the input text unchanged. -/
theorem empty_dictionary_filter_identity (text : List Char) (returnImmediately : Bool) :
    SensitiveWordReplace [] text returnImmediately = (false, [], text) ∧
    SensitiveWordContains [] text = (false, []) :=
  ⟨rfl, rfl⟩

/-- C6: for an Azure-type channel, `GetRequestURL` with upstream model
`gpt-4-32k-0613` yields a URL whose deployment segment is `gpt-4-32k` (date
suffix stripped), with the existing query string removed and the `api-version`
parameter appended; the companion conjunct shows literal dots being removed
from a dotted model name under the same construction. -/
theorem azure_url_deployment_construction (baseUrl apiVersion : List Char) :
    GetRequestURL true baseUrl "/v1/chat/completions?foo=1".toList apiVersion
        "gpt-4-32k-0613".toList =
      baseUrl ++ "/openai/deployments/gpt-4-32k/chat/completions?api-version=".toList
        ++ apiVersion ∧
    GetRequestURL true baseUrl "/v1/chat/completions".toList apiVersion
        "gpt-3.5-turbo-0613".toList =
      baseUrl ++ "/openai/deployments/gpt-35-turbo/chat/completions?api-version=".toList
        ++ apiVersion := by
  constructor <;>
    simp [GetRequestURL, getFullRequestURL, goSplitFirst, goTrimStart, goTrimEnd,
      goReplaceAll, goReplaceAllAux, List.isPrefixOf, List.isSuffixOf]

/-- C7: for the chat-mode upstream stream `data: {"choices":[{"delta":
{"content":"Hi"}}]}`, `data: {"choices":[{"delta":{"content":" there"}}]}`,
`data: [DONE]`, the handler forwards the three frames in upstream order (after
which the stream terminates) and the aggregated response text is `Hi there`. -/
theorem stream_handler_chat_frames_and_aggregation :
    OpenaiStreamHandler [] false false .chatCompletions
        ("data: \x7b\"choices\":[\x7b\"delta\":\x7b\"content\":\"Hi\"\x7d\x7d]\x7d\ndata: \x7b\"choices\":[\x7b\"delta\":\x7b\"content\":\" there\"\x7d\x7d]\x7d\ndata: [DONE]\n").toList =
      ⟨["data: \x7b\"choices\":[\x7b\"delta\":\x7b\"content\":\"Hi\"\x7d\x7d]\x7d".toList,
        "data: \x7b\"choices\":[\x7b\"delta\":\x7b\"content\":\" there\"\x7d\x7d]\x7d".toList,
        "data: [DONE]".toList],
       "Hi there".toList⟩ :=
  rfl

/-- C9: a failed relay redirects with HTTP 307 to the same path with the retry
counter decremented whenever the remaining counter (parsed from the `retry`
query parameter, or the configured default when absent) is positive, and
returns the error JSON with the request id exactly when the counter is 0 or
less. -/
theorem relay_error_redirects_while_retries_remain
    (path msg reqId : List Char) (defaultRetry : Int) (st : Nat) (n : Nat) :
    (0 < n → relayErrorOutcome path (natToDec n) defaultRetry st msg reqId =
        .redirect 307 (path ++ "?retry=".toList ++ natToDec (n - 1))) ∧
    (relayErrorOutcome path (natToDec 0) defaultRetry st msg reqId =
        .jsonError st msg reqId) ∧
    (0 < defaultRetry → relayErrorOutcome path [] defaultRetry st msg reqId =
        .redirect 307 (path ++ "?retry=".toList ++ intToDec (defaultRetry - 1))) ∧
    (defaultRetry ≤ 0 → relayErrorOutcome path [] defaultRetry st msg reqId =
        .jsonError st msg reqId) := by
  refine ⟨?_, ?_, ?_, ?_⟩
  · intro hn
    have hne := natToDec_ne_nil n
    simp only [relayErrorOutcome, if_neg hne, goAtoi_natToDec]
    rw [if_pos (by exact_mod_cast hn)]
    have hcast : (n : Int) - 1 = ((n - 1 : Nat) : Int) := by omega
    rw [hcast, intToDec_ofNat]
  · have hne := natToDec_ne_nil 0
    simp only [relayErrorOutcome, if_neg hne, goAtoi_natToDec]
    norm_num
  · intro hd
    simp [relayErrorOutcome, hd]
  · intro hd
    have hnd : ¬ (0 : Int) < defaultRetry := by omega
    simp [relayErrorOutcome, hnd]

/-- Witness of C9's theorem at path `/v1/chat/completions`, counter 3 from the
query parameter and default retry count 2 with the parameter absent. -/
theorem relay_error_redirects_while_retries_remain_witness :
    (0 < 3 ∧ relayErrorOutcome "/v1/chat/completions".toList (natToDec 3) 2 502
        "upstream error".toList "rid".toList =
      .redirect 307 ("/v1/chat/completions".toList ++ "?retry=".toList ++ natToDec 2)) ∧
    (0 < (2 : Int) ∧ relayErrorOutcome "/v1/chat/completions".toList [] 2 502
        "upstream error".toList "rid".toList =
      .redirect 307 ("/v1/chat/completions".toList ++ "?retry=".toList ++ intToDec 1)) := by
  have h := relay_error_redirects_while_retries_remain "/v1/chat/completions".toList
    "upstream error".toList "rid".toList 2 502 3
  exact ⟨⟨by decide, h.1 (by decide)⟩, ⟨by decide, h.2.2.1 (by decide)⟩⟩

/-- C10: a moderation-mode request with an empty model field is never rejected
with the model-required error (the model is defaulted to
`text-moderation-latest` before the check), and an embeddings-mode request with
an empty model is defaulted from the `:model` URL path parameter, so with a
non-empty path parameter the model-required branch is likewise unreachable. -/
theorem moderation_empty_model_never_model_required
    (pathModelParam : List Char) (req : TextRequest) :
    getAndValidateTextRequest .moderations pathModelParam req ≠
      Except.error "model is required".toList ∧
    (req.model = [] → pathModelParam ≠ [] →
      getAndValidateTextRequest .embeddings pathModelParam req ≠
        Except.error "model is required".toList) := by
  constructor
  · by_cases hm : req.model = [] <;>
      simp [getAndValidateTextRequest, hm] <;>
      split_ifs <;> simp_all
  · intro hm hp
    simp [getAndValidateTextRequest, hm, hp]
    split_ifs <;> simp_all

/-- Witness of C10's theorem at an empty-model request with input `x` and a
non-empty path parameter. -/
theorem moderation_empty_model_never_model_required_witness :
    getAndValidateTextRequest .moderations "m".toList
        ⟨[], [], [], "x".toList, [], 0, false⟩ ≠
      Except.error "model is required".toList ∧
    getAndValidateTextRequest .embeddings "m".toList
        ⟨[], [], [], "x".toList, [], 0, false⟩ ≠
      Except.error "model is required".toList := by
  have h := moderation_empty_model_never_model_required "m".toList
    ⟨[], [], [], "x".toList, [], 0, false⟩
  exact ⟨h.1, h.2 rfl (by decide)⟩

end NewApi
